import Mathlib

/-!
Shallow embedding of the bastion lifecycle and tunnel session orchestrator
(scripts/db-tunnel.ts): argument parsing, stack-output resolution, the
instance start-up polling loop, the signal/child-exit teardown paths, and
the process exit codes. Definitions are translated from the TypeScript
source; theorems check the specification's claims against them.
-/

/-- Observed EC2 instance lifecycle states (the InstanceStateName values the
script compares against). The script may also observe no state at all
(JavaScript undefined, when the reservation or instance is absent); that is
modelled as none at the Option IState level. -/
inductive IState where
  | pending
  | running
  | stopping
  | stopped
  | shuttingDown
  | terminated
deriving DecidableEq, Repr

/-- One iteration of the polling loop in ensureInstanceRunning: the fake-clock
time at which the state was observed (milliseconds since the loop started),
the observed state, and whether a StartInstances request was issued in this
iteration. -/
structure Iter where
  now : Nat
  obs : Option IState
  started : Bool
deriving DecidableEq, Repr

/-- Result of ensureInstanceRunning: success, the thrown terminal-state error,
the thrown timeout error, or exhaustion of the injected observation sequence
(a model artifact: the real loop can always poll again). -/
inductive Outcome where
  | ok
  | terminal (s : IState)
  | timeout
  | exhausted
deriving DecidableEq, Repr

/-- Run record: final outcome plus the per-iteration trace. -/
structure RunResult where
  outcome : Outcome
  trace : List Iter
deriving DecidableEq, Repr

/-- Fixed polling interval: await sleep(5000). -/
def pollIntervalMs : Nat := 5000

/-- Default safety timeout of ensureInstanceRunning: 5 * 60 * 1000 ms. -/
def defaultTimeoutMs : Nat := 5 * 60 * 1000

/-- Body of the for(;;) loop of ensureInstanceRunning, one recursive step per
poll, driven by an injected sequence of observed states. Branch order is the
source order: running returns; terminated and shutting-down throw; stopping
checks the deadline and re-polls without starting; stopped or undefined issue
StartInstances; then the bottom deadline check runs and the loop sleeps.
Time advances by pollIntervalMs per sleep (fake clock); now is elapsed time,
so the source comparison Date.now() - start > timeoutMs is now > timeoutMs. -/
def ensureLoop (timeoutMs : Nat) : List (Option IState) → Nat → RunResult
  | [], _ => ⟨.exhausted, []⟩
  | o :: rest, now =>
    if o = some IState.running then
      ⟨.ok, [⟨now, o, false⟩]⟩
    else if o = some IState.terminated then
      ⟨.terminal IState.terminated, [⟨now, o, false⟩]⟩
    else if o = some IState.shuttingDown then
      ⟨.terminal IState.shuttingDown, [⟨now, o, false⟩]⟩
    else if o = some IState.stopping then
      if now > timeoutMs then ⟨.timeout, [⟨now, o, false⟩]⟩
      else
        let r := ensureLoop timeoutMs rest (now + pollIntervalMs)
        ⟨r.outcome, ⟨now, o, false⟩ :: r.trace⟩
    else
      -- state is pending, stopped, or undefined here
      let started := decide (o = some IState.stopped ∨ o = none)
      if now > timeoutMs then ⟨.timeout, [⟨now, o, started⟩]⟩
      else
        let r := ensureLoop timeoutMs rest (now + pollIntervalMs)
        ⟨r.outcome, ⟨now, o, started⟩ :: r.trace⟩

/-- ensureInstanceRunning(ec2, instanceId, timeoutMs): the loop starts with
const start = Date.now(), i.e. elapsed time zero. -/
def ensureInstanceRunning (timeoutMs : Nat) (seq : List (Option IState)) : RunResult :=
  ensureLoop timeoutMs seq 0

/-- Number of StartInstances requests issued during a run. -/
def countStarts (r : RunResult) : Nat :=
  (r.trace.filter (fun it => it.started)).length

/-!
Argument parsing (parseArgs of db-tunnel.ts). JavaScript strings that may be
undefined are Option String (none is undefined); the JavaScript truthiness
test on such a value is false exactly for undefined and the empty string.
Number conversion of a user-supplied string is abstracted by a parameter
toNum : String → Option Int, with none standing for NaN, so every theorem
below holds for any semantics of that conversion.
-/

/-- Parsed command-line options of the tunnel script. -/
structure Args where
  region : String
  accessStack : String
  dbStack : String
  localPort : Int
deriving DecidableEq, Repr

/-- Errors parseArgs can throw, one per throw site in the source. -/
inductive ParseError where
  | missingRegion
  | missingAccessStack
  | missingDbStack
  | invalidLocalPort
deriving DecidableEq, Repr

/-- The local helper get(k): args.indexOf of the flag, then args[i + 1],
which is undefined when the flag is last; absent flag yields the default
(every call site passes no default, i.e. undefined). -/
def jsGet (argv : List String) (k : String) (d : Option String) : Option String :=
  match argv.findIdx? (fun a => a = "--" ++ k) with
  | some i => argv[i + 1]?
  | none => d

/-- JavaScript falsiness of a possibly-undefined string. -/
def jsFalsy : Option String → Bool
  | none => true
  | some s => s == ""

/-- JavaScript a || b on possibly-undefined strings. -/
def jsOrS (a b : Option String) : Option String :=
  if jsFalsy a then b else a

/-- parseArgs(): resolves the four options with their defaults, then checks
them in source order. Number(get("local-port") || 5439) evaluates the
disjunction first, so a missing or empty value becomes the number 5439
before conversion; the check !localPort || Number.isNaN(localPort) rejects
NaN and zero. -/
def parseArgs (toNum : String → Option Int) (argv : List String)
    (envRegion : Option String) : Except ParseError Args :=
  let region := jsOrS (jsOrS (jsGet argv "region" none) envRegion) (some "us-east-1")
  let accessStack := jsOrS (jsGet argv "access-stack" none) (some "VersoStat-AccessStack-prod")
  let dbStack := jsOrS (jsGet argv "db-stack" none) (some "VersoStat-DatabaseStack-prod")
  let localPort : Option Int :=
    match jsGet argv "local-port" none with
    | none => some 5439
    | some s => if s == "" then some 5439 else toNum s
  if jsFalsy region then .error .missingRegion
  else if jsFalsy accessStack then .error .missingAccessStack
  else if jsFalsy dbStack then .error .missingDbStack
  else
    match localPort with
    | none => .error .invalidLocalPort
    | some n =>
      if n = 0 then .error .invalidLocalPort
      else .ok ⟨region.getD "", accessStack.getD "", dbStack.getD "", n⟩

/-!
Teardown model. After the session child is spawned, three signal handlers
(SIGINT, SIGTERM, SIGTSTP) each call cleanupAndExit with their exit code,
and the child exit observer runs its own handler. Node runs each handler
synchronously up to its first await, so an invocation is two atomic steps:

  cleanupAndExit(code):  step 1 (entry)  - if the child is alive, kill it;
                                           log; issue the StopInstances
                                           request (stopInstance logs then
                                           sends), then suspend on the await;
                         step 2 (resume) - handle the response, logging a
                         failure instead of rethrowing, then process.exit(code).

  child.on("exit"):      step 1 (entry)  - log; issue the StopInstances
                                           request directly, then suspend;
                         step 2 (resume) - handle the response, logging a
                         failure; no process.exit (the process later exits
                         with the Node default code 0 when the loop drains).

A scheduler interleaves steps of any number of pending invocations; once
some invocation reaches process.exit, nothing further runs.
-/

/-- Kind of a pending teardown-path invocation: cleanupAndExit with its exit
code, or the child exit observer. -/
inductive TKind where
  | cleanup (code : Nat)
  | childExitObserver
deriving DecidableEq, Repr

/-- Progress of one invocation: before its entry step, suspended on the
await of the stop request, or finished. -/
inductive Phase where
  | entry
  | awaitStop
  | done
deriving DecidableEq, Repr

/-- One pending invocation of a teardown path. -/
structure TriggerTask where
  kind : TKind
  phase : Phase
deriving DecidableEq, Repr

/-- Observable process state: whether the child is alive (spawned and not
yet killed), how many child kill calls were made, how many times the
cleanupAndExit entry ran, how many StopInstances requests were issued, how
many stop failures were logged, and the process.exit code once set. -/
structure World where
  childAlive : Bool
  killCount : Nat
  teardownCalls : Nat
  stopRequests : Nat
  stopFailLogs : Nat
  exited : Option Nat
deriving DecidableEq, Repr

/-- State right after the child is spawned and the globals are set. -/
def World.init : World := ⟨true, 0, 0, 0, 0, none⟩

/-- Entry step of an invocation (its synchronous prefix up to the await of
the stop request), by kind. cleanupAndExit kills the child only when
childGlobal is set and not yet killed; the child exit observer issues the
stop request directly without touching the child or cleanupAndExit. -/
def stepEntry (w : World) (k : TKind) : World :=
  match k with
  | .cleanup _ =>
    { w with
      teardownCalls := w.teardownCalls + 1,
      killCount := if w.childAlive then w.killCount + 1 else w.killCount,
      childAlive := false,
      stopRequests := w.stopRequests + 1 }
  | .childExitObserver =>
    { w with stopRequests := w.stopRequests + 1 }

/-- Resume step of an invocation once its stop request completed with the
given success flag: both paths catch a failure and log it instead of
rethrowing; cleanupAndExit then calls process.exit with its code, while the
child exit observer just returns. -/
def stepResume (w : World) (k : TKind) (ok : Bool) : World :=
  let w1 := if ok then w else { w with stopFailLogs := w.stopFailLogs + 1 }
  match k with
  | .cleanup code => { w1 with exited := some code }
  | .childExitObserver => w1

/-- A scheduler configuration: the world, the pending invocations, and the
injected success flags for stop requests still to complete (consumed in
resume order). -/
structure Sys where
  w : World
  ts : List TriggerTask
  outs : List Bool
deriving DecidableEq, Repr

/-- One scheduler step: run the next atomic step of invocation i. Nothing
runs once process.exit happened; an index out of range or a finished
invocation is a no-op. -/
def schedStep (s : Sys) (i : Nat) : Sys :=
  if s.w.exited.isSome then s
  else
    match s.ts[i]? with
    | none => s
    | some t =>
      match t.phase with
      | .entry => ⟨stepEntry s.w t.kind, s.ts.set i { t with phase := .awaitStop }, s.outs⟩
      | .awaitStop =>
        ⟨stepResume s.w t.kind (s.outs.headD true), s.ts.set i { t with phase := .done }, s.outs.tail⟩
      | .done => s

/-- Run a whole schedule (a list of invocation indices). -/
def runSched (sched : List Nat) (s : Sys) : Sys :=
  sched.foldl schedStep s

/-- process.on("SIGINT", ...): Ctrl+C calls cleanupAndExit(130). -/
def sigintTask : TriggerTask := ⟨.cleanup 130, .entry⟩

/-- process.on("SIGTERM", ...): calls cleanupAndExit(143). -/
def sigtermTask : TriggerTask := ⟨.cleanup 143, .entry⟩

/-- process.on("SIGTSTP", ...): Ctrl+Z calls cleanupAndExit(148). -/
def sigtstpTask : TriggerTask := ⟨.cleanup 148, .entry⟩

/-- The child exit observer registered by child.on("exit", ...). -/
def childExitTask : TriggerTask := ⟨.childExitObserver, .entry⟩

/-- Final process exit code: the explicit process.exit code when one was
called, otherwise the Node default 0 when the event loop drains. -/
def processExitCode (w : World) : Nat := w.exited.getD 0

/-!
main(): parseArgs, then the two getStackOutput lookups (bastion instance id
from the access stack, database host from the database stack), then
ensureInstanceRunning, then the session spawn. Lookup results are injected
as Option String (none is a thrown lookup error). Any throw is caught by
main().catch, which calls process.exit(1).
-/

/-- How a modelled run of main ends: process.exit(1) from the catch handler,
reaching the session spawn, or exhaustion of the injected observation
sequence (model artifact). -/
inductive MainOutcome where
  | exited (code : Nat)
  | sessionStarted
  | modelExhausted
deriving DecidableEq, Repr

/-- Result of the modelled main: how it ended and how many StartInstances
requests were issued on the way. -/
structure MainResult where
  outcome : MainOutcome
  startRequests : Nat
deriving DecidableEq, Repr

/-- main() up to the session spawn, in source order: parseArgs, bastion id
lookup, database host lookup, ensureInstanceRunning with the default
timeout. A failure at any point reaches main().catch and process.exit(1). -/
def mainModel (toNum : String → Option Int) (argv : List String)
    (envRegion : Option String) (bastion db : Option String)
    (seq : List (Option IState)) : MainResult :=
  match parseArgs toNum argv envRegion with
  | .error _ => ⟨.exited 1, 0⟩
  | .ok _ =>
    match bastion with
    | none => ⟨.exited 1, 0⟩
    | some _ =>
      match db with
      | none => ⟨.exited 1, 0⟩
      | some _ =>
        let r := ensureInstanceRunning defaultTimeoutMs seq
        match r.outcome with
        | .ok => ⟨.sessionStarted, countStarts r⟩
        | .exhausted => ⟨.modelExhausted, countStarts r⟩
        | .terminal _ => ⟨.exited 1, countStarts r⟩
        | .timeout => ⟨.exited 1, countStarts r⟩

theorem trace_started_char (timeoutMs : Nat) (seq : List (Option IState)) :
    ∀ (now : Nat) (it : Iter), it ∈ (ensureLoop timeoutMs seq now).trace →
      it.started = decide (it.obs = some IState.stopped ∨ it.obs = none) := by
  induction seq with
  | nil => intro now it h; simp [ensureLoop] at h
  | cons o rest ih =>
    intro now it h
    simp only [ensureLoop] at h
    split at h
    next ho => simp at h; subst h; simp [ho]
    next ho =>
      split at h
      next ho2 => simp at h; subst h; simp [ho2]
      next ho2 =>
        split at h
        next ho3 => simp at h; subst h; simp [ho3]
        next ho3 =>
          split at h
          next ho4 =>
            split at h
            · simp at h; subst h; simp [ho4]
            · simp only [List.mem_cons] at h
              rcases h with rfl | h
              · simp [ho4]
              · exact ih _ _ h
          next ho4 =>
            split at h
            · simp at h; subst h; simp [Bool.decide_or]
            · simp only [List.mem_cons] at h
              rcases h with rfl | h
              · simp [Bool.decide_or]
              · exact ih _ _ h

/-- Claim C3: for every injected sequence of observed instance states,
ensureRunning never issues a start request in an iteration whose observed
state is pending, stopping, or running; a start request is issued only from
an iteration whose observed state is stopped or undefined. -/
theorem ensureRunning_start_only_from_stopped_or_unknown (timeoutMs now : Nat)
    (seq : List (Option IState)) (it : Iter)
    (hmem : it ∈ (ensureLoop timeoutMs seq now).trace) (hst : it.started = true) :
    it.obs = some IState.stopped ∨ it.obs = none := by
  have h := trace_started_char timeoutMs seq now it hmem
  rw [hst] at h
  exact of_decide_eq_true h.symm

/-- Witness for C3 at a concrete run: the first iteration of the run on
stopped, running issues the start request from the stopped observation. -/
theorem ensureRunning_start_only_from_stopped_or_unknown_witness :
    (⟨0, some IState.stopped, true⟩ : Iter) ∈
      (ensureLoop defaultTimeoutMs [some IState.stopped, some IState.running] 0).trace ∧
    ((⟨0, some IState.stopped, true⟩ : Iter).obs = some IState.stopped ∨
      (⟨0, some IState.stopped, true⟩ : Iter).obs = none) :=
  ⟨by decide,
    ensureRunning_start_only_from_stopped_or_unknown defaultTimeoutMs 0
      [some IState.stopped, some IState.running] ⟨0, some IState.stopped, true⟩
      (by decide) (by decide)⟩

/-- Claim C4: if the first observed instance state is terminated or
shutting-down, ensureRunning fails immediately with the terminal-state error
on that first poll: it issues no start request, performs no further polling,
and does not retry, whatever the remaining injected states are. -/
theorem ensureRunning_terminal_fails_first_poll (timeoutMs now : Nat) (s : IState)
    (rest : List (Option IState))
    (h : s = IState.terminated ∨ s = IState.shuttingDown) :
    ensureLoop timeoutMs (some s :: rest) now =
      ⟨Outcome.terminal s, [⟨now, some s, false⟩]⟩ := by
  rcases h with rfl | rfl <;> rfl

/-- Witness for C4 at a concrete run: a first observation of terminated ends
the run at once with the terminal-state error and an empty request record. -/
theorem ensureRunning_terminal_fails_first_poll_witness :
    ensureLoop defaultTimeoutMs [some IState.terminated, some IState.running] 0 =
      ⟨Outcome.terminal IState.terminated, [⟨0, some IState.terminated, false⟩]⟩ :=
  ensureRunning_terminal_fails_first_poll defaultTimeoutMs 0 IState.terminated
    [some IState.running] (Or.inl rfl)

/-- Claim C8: on the injected observed-state sequence stopped, pending,
pending, running with the default timeout, ensureRunning succeeds, issues
exactly one start request, and observes four states in total, i.e. returns
success on the poll after three further polls follow the initial stopped
observation. -/
theorem ensureRunning_scenario_stopped_pending_pending_running :
    (ensureInstanceRunning defaultTimeoutMs
        [some IState.stopped, some IState.pending, some IState.pending,
          some IState.running]).outcome = Outcome.ok ∧
    countStarts (ensureInstanceRunning defaultTimeoutMs
        [some IState.stopped, some IState.pending, some IState.pending,
          some IState.running]) = 1 ∧
    (ensureInstanceRunning defaultTimeoutMs
        [some IState.stopped, some IState.pending, some IState.pending,
          some IState.running]).trace.length = 4 := by
  decide

/-- Counterexample to claim C5: the deadline check is not independent of the
observed state. With a deadline of 0 and the sequence pending, running, the
second poll happens at elapsed time 5000 > 0 yet the call returns success,
not Timeout; and with pending, terminated it fails with the terminal-state
error, not Timeout. -/
theorem ensureRunning_past_deadline_outcome_depends_on_state :
    (ensureInstanceRunning 0 [some IState.pending, some IState.running]).outcome =
      Outcome.ok ∧
    (ensureInstanceRunning 0 [some IState.pending, some IState.running]).trace =
      [⟨0, some IState.pending, false⟩, ⟨5000, some IState.running, false⟩] ∧
    5000 > 0 ∧
    (ensureInstanceRunning 0 [some IState.pending, some IState.terminated]).outcome =
      Outcome.terminal IState.terminated := by
  decide

/-- Amended claim C5: on every poll iteration whose elapsed time exceeds the
deadline, the call fails with Timeout unless the state observed on that poll
is running (which still succeeds) or terminated or shutting-down (which
still fail with the terminal-state error); the deadline check runs after
those branches. -/
theorem ensureRunning_timeout_past_deadline_unless_running_or_terminal
    (timeoutMs : Nat) (seq : List (Option IState)) :
    ∀ (now : Nat) (it : Iter), it ∈ (ensureLoop timeoutMs seq now).trace →
      it.now > timeoutMs → it.obs ≠ some IState.running →
      it.obs ≠ some IState.terminated → it.obs ≠ some IState.shuttingDown →
      (ensureLoop timeoutMs seq now).outcome = Outcome.timeout := by
  induction seq with
  | nil => intro now it h; simp [ensureLoop] at h
  | cons o rest ih =>
    intro now it h hnow h1 h2 h3
    cases o with
    | none =>
      by_cases hnt : now > timeoutMs
      · simp [ensureLoop, hnt]
      · simp only [ensureLoop] at h ⊢
        simp only [reduceCtorEq, if_false, if_neg hnt] at h ⊢
        simp only [List.mem_cons] at h
        rcases h with rfl | h
        · exact absurd hnow hnt
        · exact ih _ it h hnow h1 h2 h3
    | some s =>
      cases s with
      | running => simp [ensureLoop] at h; subst h; simp at h1
      | terminated => simp [ensureLoop] at h; subst h; simp at h2
      | shuttingDown => simp [ensureLoop] at h; subst h; simp at h3
      | stopping =>
        by_cases hnt : now > timeoutMs
        · simp [ensureLoop, hnt]
        · simp only [ensureLoop] at h ⊢
          simp [hnt] at h ⊢
          rcases h with rfl | h
          · exact absurd hnow hnt
          · exact ih _ it h hnow h1 h2 h3
      | pending =>
        by_cases hnt : now > timeoutMs
        · simp [ensureLoop, hnt]
        · simp only [ensureLoop] at h ⊢
          simp [hnt] at h ⊢
          rcases h with rfl | h
          · exact absurd hnow hnt
          · exact ih _ it h hnow h1 h2 h3
      | stopped =>
        by_cases hnt : now > timeoutMs
        · simp [ensureLoop, hnt]
        · simp only [ensureLoop] at h ⊢
          simp [hnt] at h ⊢
          rcases h with rfl | h
          · exact absurd hnow hnt
          · exact ih _ it h hnow h1 h2 h3

/-- Witness for the amended C5 at a concrete run: with deadline 0 and the
sequence pending, stopped, the second poll is past the deadline with a
non-running, non-terminal observation and the run fails with Timeout. -/
theorem ensureRunning_timeout_past_deadline_witness :
    (ensureLoop 0 [some IState.pending, some IState.stopped] 0).outcome =
      Outcome.timeout :=
  ensureRunning_timeout_past_deadline_unless_running_or_terminal 0
    [some IState.pending, some IState.stopped] 0
    ⟨5000, some IState.stopped, true⟩ (by decide) (by decide) (by decide)
    (by decide) (by decide)

theorem jsFalsy_jsOrS (a b : Option String) :
    jsFalsy (jsOrS a b) = (jsFalsy a && jsFalsy b) := by
  unfold jsOrS
  cases hfa : jsFalsy a <;> simp [hfa]

theorem jsFalsy_default_region : jsFalsy (some "us-east-1") = false := by decide

theorem jsFalsy_default_access : jsFalsy (some "VersoStat-AccessStack-prod") = false := by decide

theorem jsFalsy_default_db : jsFalsy (some "VersoStat-DatabaseStack-prod") = false := by decide

/-- Claim C10: for every argument vector, environment, and semantics of
numeric conversion, parseArgs never throws its missing-region,
missing-access-stack, or missing-db-stack errors: each of those options is
resolved to a truthy value via its non-empty default before the check, so
the only error parseArgs can return is invalidLocalPort. -/
theorem parseArgs_error_only_invalid_local_port (toNum : String → Option Int)
    (argv : List String) (envRegion : Option String) (e : ParseError)
    (h : parseArgs toNum argv envRegion = .error e) :
    e = ParseError.invalidLocalPort := by
  unfold parseArgs at h
  simp only [jsFalsy_jsOrS, jsFalsy_default_region, jsFalsy_default_access,
    jsFalsy_default_db, Bool.and_false, Bool.false_eq_true, if_false] at h
  split at h
  · simp only [Except.error.injEq] at h
    exact h.symm
  · split at h
    · simp only [Except.error.injEq] at h
      exact h.symm
    · simp at h

/-- Witness for C10 at a concrete input: a non-numeric local port value is
the one reachable parse error. -/
theorem parseArgs_error_only_invalid_local_port_witness :
    parseArgs (fun _ => none) ["--local-port", "abc"] none =
      .error ParseError.invalidLocalPort ∧
    ParseError.invalidLocalPort = ParseError.invalidLocalPort :=
  ⟨rfl,
    parseArgs_error_only_invalid_local_port (fun _ => none)
      ["--local-port", "abc"] none ParseError.invalidLocalPort rfl⟩

/-- Claim C7: both stack-output lookups are resolved before lifecycle
control begins; if either lookup fails, the modelled main exits with code 1
having issued no start request (no instance mutation is attempted). -/
theorem lookup_failure_exits_before_mutation (toNum : String → Option Int)
    (argv : List String) (envRegion : Option String) (bastion db : Option String)
    (seq : List (Option IState)) (h : bastion = none ∨ db = none) :
    mainModel toNum argv envRegion bastion db seq = ⟨MainOutcome.exited 1, 0⟩ := by
  unfold mainModel
  rcases h with rfl | rfl
  · cases parseArgs toNum argv envRegion <;> rfl
  · cases parseArgs toNum argv envRegion with
    | error e => rfl
    | ok a => cases bastion <;> rfl

/-- Witness for C7 at a concrete input: a failed bastion-id lookup exits 1
with zero start requests. -/
theorem lookup_failure_exits_before_mutation_witness :
    mainModel (fun _ => some 1) [] none none (some "db.example.com")
      [some IState.stopped] = ⟨MainOutcome.exited 1, 0⟩ :=
  lookup_failure_exits_before_mutation (fun _ => some 1) [] none none
    (some "db.example.com") [some IState.stopped] (Or.inl rfl)

/-- Claim C9: if the stop request issued during cleanupAndExit fails, the
failure is logged and never re-raised, and the process still exits with the
exit code of the original trigger, identically to the success case. -/
theorem teardown_stop_failure_logged_exit_code_kept (code : Nat) (ok : Bool) :
    (runSched [0, 0] ⟨World.init, [⟨TKind.cleanup code, Phase.entry⟩], [ok]⟩).w.exited =
      some code ∧
    (runSched [0, 0] ⟨World.init, [⟨TKind.cleanup code, Phase.entry⟩], [ok]⟩).w.stopFailLogs =
      (if ok then 0 else 1) := by
  cases ok <;>
    simp [runSched, schedStep, stepEntry, stepResume, World.init]

/-- Claim C6: the process exit code is determined by the termination cause:
130 for the interrupt handler, 143 for the terminate handler, 148 for the
suspend handler, 0 on normal completion after child exit and successful
teardown (no explicit process.exit, Node default), and 1 for a fatal
resolution error (failed lookup) or lifecycle error (terminal instance
state) before a session is established. -/
theorem exit_code_by_termination_cause :
    processExitCode (runSched [0, 0] ⟨World.init, [sigintTask], [true]⟩).w = 130 ∧
    processExitCode (runSched [0, 0] ⟨World.init, [sigtermTask], [true]⟩).w = 143 ∧
    processExitCode (runSched [0, 0] ⟨World.init, [sigtstpTask], [true]⟩).w = 148 ∧
    processExitCode (runSched [0, 0] ⟨World.init, [childExitTask], [true]⟩).w = 0 ∧
    mainModel (fun _ => some 1) [] none none (some "db.example.com") [] =
      ⟨MainOutcome.exited 1, 0⟩ ∧
    mainModel (fun _ => some 1) [] none (some "i-0abc") (some "db.example.com")
      [some IState.terminated] = ⟨MainOutcome.exited 1, 0⟩ := by
  decide

/-- Counterexample to claim C2: the child exit observer does not route
through cleanupAndExit. Running it to completion issues one StopInstances
request directly while the cleanupAndExit entry runs zero times (and no
process.exit is performed by it). -/
theorem child_exit_observer_calls_stop_directly :
    (runSched [0, 0] ⟨World.init, [childExitTask], [true]⟩).w.stopRequests = 1 ∧
    (runSched [0, 0] ⟨World.init, [childExitTask], [true]⟩).w.teardownCalls = 0 ∧
    (runSched [0, 0] ⟨World.init, [childExitTask], [true]⟩).w.exited = none := by
  decide

/-- Amended claim C2: when the child terminates, the registered exit
observer issues the instance-stop request directly itself, exactly once per
invocation, and never triggers the cleanupAndExit entry point at all: from
any not-yet-exited world it adds one stop request, leaves the cleanupAndExit
call count, the kill count, and the exit status unchanged. -/
theorem child_exit_observer_direct_stop_no_cleanup (w : World) (outs : List Bool)
    (h : w.exited = none) :
    (runSched [0, 0] ⟨w, [childExitTask], outs⟩).w.stopRequests = w.stopRequests + 1 ∧
    (runSched [0, 0] ⟨w, [childExitTask], outs⟩).w.teardownCalls = w.teardownCalls ∧
    (runSched [0, 0] ⟨w, [childExitTask], outs⟩).w.killCount = w.killCount ∧
    (runSched [0, 0] ⟨w, [childExitTask], outs⟩).w.exited = none := by
  cases outs with
  | nil => simp [runSched, schedStep, stepEntry, stepResume, childExitTask, h]
  | cons b rest =>
    cases b <;> simp [runSched, schedStep, stepEntry, stepResume, childExitTask, h]

/-- Witness for the amended C2 from the freshly spawned world. -/
theorem child_exit_observer_direct_stop_no_cleanup_witness :
    (runSched [0, 0] ⟨World.init, [childExitTask], []⟩).w.stopRequests =
      World.init.stopRequests + 1 ∧
    (runSched [0, 0] ⟨World.init, [childExitTask], []⟩).w.teardownCalls =
      World.init.teardownCalls ∧
    (runSched [0, 0] ⟨World.init, [childExitTask], []⟩).w.killCount =
      World.init.killCount ∧
    (runSched [0, 0] ⟨World.init, [childExitTask], []⟩).w.exited = none :=
  child_exit_observer_direct_stop_no_cleanup World.init [] rfl

/-- Counterexample to claim C1: there is no single-shot guard. Two triggers
that fire back-to-back before the first completes (the second runs while the
first awaits its stop request) both execute the teardown body: the
cleanupAndExit entry runs twice and two StopInstances requests are issued,
not one; the process then exits with the first trigger code. -/
theorem two_back_to_back_triggers_two_teardowns :
    (runSched [0, 1, 0] ⟨World.init, [sigintTask, sigtermTask], [true, true]⟩).w.teardownCalls = 2 ∧
    (runSched [0, 1, 0] ⟨World.init, [sigintTask, sigtermTask], [true, true]⟩).w.stopRequests = 2 ∧
    (runSched [0, 1, 0] ⟨World.init, [sigintTask, sigtermTask], [true, true]⟩).w.exited = some 130 := by
  decide

/-- Number of pending invocations that have not yet run their entry step. -/
def entryCount (ts : List TriggerTask) : Nat :=
  ts.countP (fun t => t.phase == Phase.entry)

/-- Invariant of the teardown scheduler: the child is killed at most once
(the killed flag guards the kill, not the stop), and every entry step issues
exactly one stop request, so the stop requests issued so far plus the
invocations still before their entry step equal the number of invocations. -/
def SysInv (s : Sys) : Prop :=
  s.w.killCount ≤ 1 ∧ (s.w.childAlive = true → s.w.killCount = 0) ∧
  s.w.stopRequests + entryCount s.ts = s.ts.length

theorem countP_set_eq (p : TriggerTask → Bool) :
    ∀ (ts : List TriggerTask) (i : Nat) (t u : TriggerTask), ts[i]? = some t →
      (ts.set i u).countP p + (if p t then 1 else 0) =
        ts.countP p + (if p u then 1 else 0) := by
  intro ts
  induction ts with
  | nil => intro i t u h; simp at h
  | cons a l ih =>
    intro i t u h
    cases i with
    | zero =>
      simp only [List.getElem?_cons_zero, Option.some.injEq] at h
      subst h
      simp [List.countP_cons]
      omega
    | succ j =>
      simp only [List.getElem?_cons_succ] at h
      simp only [List.set_cons_succ, List.countP_cons]
      have hrec := ih j t u h
      omega

theorem stepEntry_stopRequests (w : World) (k : TKind) :
    (stepEntry w k).stopRequests = w.stopRequests + 1 := by
  cases k with
  | cleanup code => by_cases hca : w.childAlive <;> simp [stepEntry, hca]
  | childExitObserver => simp [stepEntry]

theorem stepEntry_kill (w : World) (k : TKind) (hk : w.killCount ≤ 1)
    (ha : w.childAlive = true → w.killCount = 0) :
    (stepEntry w k).killCount ≤ 1 ∧
    ((stepEntry w k).childAlive = true → (stepEntry w k).killCount = 0) := by
  cases k with
  | cleanup code =>
    by_cases hca : w.childAlive
    · simp [stepEntry, hca, ha hca]
    · simp [stepEntry, hca]
      exact hk
  | childExitObserver =>
    simp [stepEntry]
    exact ⟨hk, ha⟩

theorem stepResume_preserves (w : World) (k : TKind) (b : Bool) :
    (stepResume w k b).killCount = w.killCount ∧
    (stepResume w k b).childAlive = w.childAlive ∧
    (stepResume w k b).stopRequests = w.stopRequests := by
  cases k <;> cases b <;> simp [stepResume]

theorem sysInv_step (s : Sys) (i : Nat) (h : SysInv s) : SysInv (schedStep s i) := by
  obtain ⟨hk, ha, hs⟩ := h
  by_cases he : s.w.exited.isSome
  · have heq : schedStep s i = s := by simp [schedStep, he]
    rw [heq]
    exact ⟨hk, ha, hs⟩
  · cases hg : s.ts[i]? with
    | none =>
      have heq : schedStep s i = s := by simp [schedStep, he, hg]
      rw [heq]
      exact ⟨hk, ha, hs⟩
    | some t =>
      cases hp : t.phase with
      | entry =>
        have heq : schedStep s i =
            ⟨stepEntry s.w t.kind,
              s.ts.set i { t with phase := Phase.awaitStop }, s.outs⟩ := by
          simp [schedStep, he, hg, hp]
        rw [heq]
        obtain ⟨hk2, ha2⟩ := stepEntry_kill s.w t.kind hk ha
        refine ⟨hk2, ha2, ?_⟩
        have hcount := countP_set_eq (fun x => x.phase == Phase.entry) s.ts i t
          { t with phase := Phase.awaitStop } hg
        show (stepEntry s.w t.kind).stopRequests +
            entryCount (s.ts.set i { t with phase := Phase.awaitStop }) =
          (s.ts.set i { t with phase := Phase.awaitStop }).length
        rw [stepEntry_stopRequests]
        simp only [entryCount] at hs ⊢
        simp only [List.length_set]
        simp [hp] at hcount
        omega
      | awaitStop =>
        have heq : schedStep s i =
            ⟨stepResume s.w t.kind (s.outs.headD true),
              s.ts.set i { t with phase := Phase.done }, s.outs.tail⟩ := by
          simp [schedStep, he, hg, hp]
        rw [heq]
        obtain ⟨hw1, hw2, hw3⟩ := stepResume_preserves s.w t.kind (s.outs.headD true)
        refine ⟨by rw [hw1]; exact hk, by rw [hw2, hw1]; exact ha, ?_⟩
        have hcount := countP_set_eq (fun x => x.phase == Phase.entry) s.ts i t
          { t with phase := Phase.done } hg
        show (stepResume s.w t.kind (s.outs.headD true)).stopRequests +
            entryCount (s.ts.set i { t with phase := Phase.done }) =
          (s.ts.set i { t with phase := Phase.done }).length
        rw [hw3]
        simp only [entryCount] at hs ⊢
        simp only [List.length_set]
        simp [hp] at hcount
        omega
      | done =>
        have heq : schedStep s i = s := by simp [schedStep, he, hg, hp]
        rw [heq]
        exact ⟨hk, ha, hs⟩

theorem sysInv_runSched (sched : List Nat) :
    ∀ s : Sys, SysInv s → SysInv (runSched sched s) := by
  induction sched with
  | nil => intro s h; exact h
  | cons i rest ih =>
    intro s h
    exact ih (schedStep s i) (sysInv_step s i h)

theorem schedStep_ts_length (s : Sys) (i : Nat) :
    (schedStep s i).ts.length = s.ts.length := by
  by_cases he : s.w.exited.isSome
  · simp [schedStep, he]
  · cases hg : s.ts[i]? with
    | none => simp [schedStep, he, hg]
    | some t => cases hp : t.phase <;> simp [schedStep, he, hg, hp]

theorem runSched_ts_length (sched : List Nat) :
    ∀ s : Sys, (runSched sched s).ts.length = s.ts.length := by
  induction sched with
  | nil => intro s; rfl
  | cons i rest ih =>
    intro s
    have hrest := ih (schedStep s i)
    have hstep := schedStep_ts_length s i
    calc (runSched (i :: rest) s).ts.length
        = (runSched rest (schedStep s i)).ts.length := rfl
      _ = (schedStep s i).ts.length := hrest
      _ = s.ts.length := hstep

theorem entryCount_cleanup_map (codes : List Nat) :
    entryCount (codes.map (fun c => ⟨TKind.cleanup c, Phase.entry⟩)) = codes.length := by
  induction codes with
  | nil => rfl
  | cons c l ih =>
    simp_all [entryCount, List.countP_cons]

theorem sysInv_start (codes : List Nat) (outs : List Bool) :
    SysInv ⟨World.init, codes.map (fun c => ⟨TKind.cleanup c, Phase.entry⟩), outs⟩ := by
  refine ⟨by simp [World.init], by simp [World.init], ?_⟩
  show World.init.stopRequests +
      entryCount (codes.map (fun c => ⟨TKind.cleanup c, Phase.entry⟩)) =
    (codes.map (fun c => (⟨TKind.cleanup c, Phase.entry⟩ : TriggerTask))).length
  rw [entryCount_cleanup_map]
  simp [World.init]

/-- Amended claim C1: the code has no single-shot guard; each trigger that
fires before the first process.exit executes the full teardown body again,
so N triggers lead to between one and N executed bodies (at most one stop
request per trigger, and triggers arriving after process.exit execute
nothing), while the child kill is still performed at most once because it
alone is guarded by the killed flag; in particular, strictly sequential
triggers produce exactly one executed teardown body. -/
theorem teardown_bounded_per_trigger_and_single_kill (sched : List Nat)
    (codes : List Nat) (outs : List Bool) :
    (runSched sched ⟨World.init,
        codes.map (fun c => ⟨TKind.cleanup c, Phase.entry⟩), outs⟩).w.killCount ≤ 1 ∧
    (runSched sched ⟨World.init,
        codes.map (fun c => ⟨TKind.cleanup c, Phase.entry⟩), outs⟩).w.stopRequests ≤
      codes.length ∧
    (runSched [0, 0, 1, 1] ⟨World.init, [sigintTask, sigtermTask],
        [true, true]⟩).w.stopRequests = 1 := by
  have hinv := sysInv_runSched sched _ (sysInv_start codes outs)
  obtain ⟨hk, _, hs⟩ := hinv
  refine ⟨hk, ?_, by decide⟩
  have hlen := runSched_ts_length sched
    ⟨World.init, codes.map (fun c => ⟨TKind.cleanup c, Phase.entry⟩), outs⟩
  simp only [List.length_map] at hlen
  omega
